import Mathlib

namespace WhatsAppSender

/-! Shallow embedding of the batch dispatch engine of `send_batch.py` and the
payload/upload helpers of `src/whatsapp_client.py`.  Python dictionaries that
hold JSON documents are modelled by the inductive type `J`; CSV rows are
association lists of string fields; machine floats used as monotonic clock
readings are modelled by rationals. -/

/-- JSON-like values produced by the payload constructors. -/
inductive J where
  | s (v : String)
  | n (v : Int)
  | obj (fields : List (String × J))
  | arr (items : List J)

/-- Dictionary lookup on a JSON object (Python `d.get(k)` on a dict). -/
def jGet : J → String → Option J
  | .obj fields, k => List.lookup k fields
  | _, _ => none

/-- Python truthiness of an optional string: `None` and `""` are falsy. -/
def pyTruthyS : Option String → Bool
  | none => false
  | some v => v ≠ ""

/-- Python truthiness of a JSON value. -/
def jTruthy : J → Bool
  | .s v => v ≠ ""
  | .n v => v ≠ 0
  | .obj l => !l.isEmpty
  | .arr l => !l.isEmpty

/-- Python `str.strip()`: drop leading and trailing whitespace.  (Defined by
plain list recursion so that terms reduce inside the kernel.) -/
def pyStrip (s : String) : String :=
  ⟨((s.data.dropWhile Char.isWhitespace).reverse.dropWhile Char.isWhitespace).reverse⟩

/-- Python `str.lower()`. -/
def pyLower (s : String) : String := ⟨s.data.map Char.toLower⟩

/-- Python `str.split(sep)` on a one-character separator, over the character
list: `"a||b" -> ["a", "", "b"]`, `"" -> [""]`. -/
def splitCharAux (sep : Char) : List Char → List (List Char)
  | [] => [[]]
  | c :: rest =>
    match splitCharAux sep rest with
    | [] => [[]]
    | g :: gs => if c = sep then [] :: g :: gs else (c :: g) :: gs

/-- Python `str.split(sep)` for a one-character separator. -/
def pySplit (s : String) (sep : Char) : List String :=
  (splitCharAux sep s.data).map (fun l => ⟨l⟩)

/-- A CSV row as produced by `csv.DictReader`: a field map with string values. -/
abbrev Row := List (String × String)

/-- `row.get(k)` -/
def rowGet (r : Row) (k : String) : Option String := List.lookup k r

/-- Python `value or default` on an optional string. -/
def pyOr (v : Option String) (d : String) : String :=
  match v with
  | none => d
  | some s => if s = "" then d else s

/-- `(row.get(k) or "").strip()` -/
def getS (r : Row) (k : String) : String := pyStrip (pyOr (rowGet r k) "")

/-- `s or None` for an already stripped string. -/
def optS (s : String) : Option String := if s = "" then none else some s

/-- `parse_list` from `send_batch.py`. -/
def parse_list (value : Option String) (sep : Char) : Option (List String) :=
  match value with
  | none => none
  | some v =>
    let v := pyStrip v
    if v = "" then none
    else some ((pySplit v sep).map pyStrip)

/-- `parse_button_params` from `send_batch.py`. -/
def parse_button_params (raw : Option String) : Option (List (List String)) :=
  match raw with
  | none => none
  | some r =>
    if r = "" then none
    else
      let parts := ((pySplit r ',').map pyStrip).filter (fun p => p ≠ "")
      if parts.isEmpty then none
      else some (parts.map (fun p => (parse_list (some p) '|').getD []))

/-- The CSV column name `cta{n}_{field}`. -/
def ctaField (n : Nat) (fieldName : String) : String :=
  "cta" ++ toString n ++ "_" ++ fieldName

/-- The CSV column name `button{n}_{field}`. -/
def buttonField (n : Nat) (fieldName : String) : String :=
  "button" ++ toString n ++ "_" ++ fieldName

/-- `infer_button_params_from_cta` from `send_batch.py`. -/
def infer_button_params_from_cta (row : Row) : Option (List (List String)) :=
  let groups := (List.range 10).filterMap (fun n =>
    if pyLower (getS row (ctaField n "type")) = "url" then
      let u := getS row (ctaField n "url")
      if u = "" then none else some [u]
    else none)
  if groups.isEmpty then none else some groups

/-- The stripped, lowered `cta{n}_type` field of a row. -/
def ctaTypeAt (row : Row) (n : Nat) : String := pyLower (getS row (ctaField n "type"))

/-- The call-to-action selection made by the `for n in range(0, 10)` loop of
`_prepare_row`: index, kind, display text, url and phone fields. -/
structure CtaSel where
  n : Nat
  ctype : String
  text : String
  url : Option String
  phone : Option String

/-- The bindings made by the CTA loop body of `_prepare_row` when it breaks at
index `n`. -/
def mkCtaSel (row : Row) (n : Nat) : CtaSel :=
  let ct := ctaTypeAt row n
  let t := getS row (ctaField n "text")
  { n := n
    ctype := ct
    text := if t = "" then (if ct = "url" then "View" else "Call") else t
    url := optS (getS row (ctaField n "url"))
    phone := optS (getS row (ctaField n "phone")) }

/-- The CTA scan loop of `_prepare_row`: first index with a non-empty
`cta{n}_type` wins. -/
def scanCta (row : Row) : List Nat → Option CtaSel
  | [] => none
  | n :: rest => if ctaTypeAt row n = "" then scanCta row rest else some (mkCtaSel row n)

def findCta (row : Row) : Option CtaSel := scanCta row (List.range 10)

/-- A flow-button descriptor collected by `_prepare_row`. -/
structure FlowBtn where
  index : String
  flow_token : String
  flow_action : String
  navigate_screen : String

/-- The flow-button collection loop of `_prepare_row`. -/
def collectFlow (row : Row) : List Nat → List FlowBtn
  | [] => []
  | n :: rest =>
    if pyLower (getS row (buttonField n "type")) = "flow" then
      { index := pyStrip (pyOr (rowGet row (buttonField n "index")) (toString n))
        flow_token := getS row (buttonField n "flow_token")
        flow_action := getS row (buttonField n "flow_action")
        navigate_screen := getS row (buttonField n "navigate_screen") } :: collectFlow row rest
    else collectFlow row rest

/-- A copy-code button descriptor collected by `_prepare_row`. -/
structure CopyBtn where
  index : String
  coupon_code : String

/-- The copy-code collection loop of `_prepare_row`; `k` is the number of
buttons collected so far (Python `len(copy_code_buttons)`), and an empty
coupon code aborts the whole row with an error. -/
def collectCopyCode (row : Row) (k : Nat) : List Nat → Except String (List CopyBtn)
  | [] => .ok []
  | n :: rest =>
    if ctaTypeAt row n = "copy_code" then
      let coupon := getS row (ctaField n "coupon_code")
      if coupon = "" then
        .error (ctaField n "coupon_code" ++ " is required for copy_code buttons")
      else
        match collectCopyCode row (k + 1) rest with
        | .error e => .error e
        | .ok more => .ok ({ index := toString k, coupon_code := coupon } :: more)
    else collectCopyCode row k rest

/-- `WhatsAppClient.build_interactive_cta_url` from `whatsapp_client.py`. -/
def build_interactive_cta_url (toAddr body_text url display_text : String)
    (footer_text : Option String) : J :=
  let action := J.obj [("name", J.s "cta_url"),
    ("parameters", J.obj [("display_text", J.s (if display_text = "" then "View" else display_text)),
      ("url", J.s url)])]
  let interactive := J.obj
    ([("type", J.s "cta_url"), ("body", J.obj [("text", J.s body_text)]), ("action", action)] ++
      (if pyTruthyS footer_text then [("footer", J.obj [("text", J.s (footer_text.getD ""))])] else []))
  J.obj [("messaging_product", J.s "whatsapp"), ("to", J.s toAddr),
    ("type", J.s "interactive"), ("interactive", interactive)]

/-- `WhatsAppClient.build_interactive_cta_call` from `whatsapp_client.py`. -/
def build_interactive_cta_call (toAddr body_text phone_number display_text : String)
    (footer_text : Option String) : J :=
  let action := J.obj [("name", J.s "cta_call"),
    ("parameters", J.obj [("display_text", J.s (if display_text = "" then "Call" else display_text)),
      ("phone_number", J.s phone_number)])]
  let interactive := J.obj
    ([("type", J.s "cta_call"), ("body", J.obj [("text", J.s body_text)]), ("action", action)] ++
      (if pyTruthyS footer_text then [("footer", J.obj [("text", J.s (footer_text.getD ""))])] else []))
  J.obj [("messaging_product", J.s "whatsapp"), ("to", J.s toAddr),
    ("type", J.s "interactive"), ("interactive", interactive)]

/-- The header-component block of `WhatsAppClient.build_template_components`:
returns the (empty or singleton) list of header components, or raises. -/
def headerComponent (header_type : String) (header_text header_media_id header_media_link : Option String) :
    Except String (List J) :=
  let htype := pyLower (if header_type = "" then "none" else header_type)
  if htype = "none" then .ok []
  else if htype = "text" then
    match header_text with
    | none => .error "header_type=text requires header_text"
    | some t => .ok [J.obj [("type", J.s "header"),
        ("parameters", J.arr [J.obj [("type", J.s "text"), ("text", J.s t)]])]]
  else if htype = "image" ∨ htype = "video" ∨ htype = "document" then
    if pyTruthyS header_media_id then
      .ok [J.obj [("type", J.s "header"),
        ("parameters", J.arr [J.obj [("type", J.s htype),
          (htype, J.obj [("id", J.s (header_media_id.getD ""))])]])]]
    else if pyTruthyS header_media_link then
      .ok [J.obj [("type", J.s "header"),
        ("parameters", J.arr [J.obj [("type", J.s htype),
          (htype, J.obj [("link", J.s (header_media_link.getD ""))])]])]]
    else .error ("header_type=" ++ htype ++ " requires media id or link")
  else .error ("Unsupported header_type: " ++ header_type)

/-- The body-component block of `build_template_components`. -/
def bodyComponent (body_params : List String) : List J :=
  if body_params.isEmpty then []
  else [J.obj [("type", J.s "body"),
    ("parameters", J.arr (body_params.map (fun x => J.obj [("type", J.s "text"), ("text", J.s x)])))]]

/-- The URL-button block of `build_template_components`. -/
def urlButtonComponents (button_params : Option (List (List String))) : List J :=
  match button_params with
  | none => []
  | some groups =>
    groups.enum.filterMap (fun p =>
      if p.2.isEmpty then none
      else some (J.obj [("type", J.s "button"), ("sub_type", J.s "url"),
        ("index", J.s (toString p.1)),
        ("parameters", J.arr (p.2.map (fun x => J.obj [("type", J.s "text"), ("text", J.s x)])))]))

/-- The flow-button block of `build_template_components`: each descriptor must
carry a token, action and screen, else a `ValueError` is raised. -/
def flowButtonComponents : List FlowBtn → Except String (List J)
  | [] => .ok []
  | fb :: rest =>
    if fb.flow_token = "" ∨ fb.flow_action = "" ∨ fb.navigate_screen = "" then
      .error "button_flow requires flow_token, flow_action, navigate_screen"
    else
      match flowButtonComponents rest with
      | .error e => .error e
      | .ok more => .ok (J.obj [("type", J.s "button"), ("sub_type", J.s "flow"),
          ("index", J.s fb.index),
          ("parameters", J.arr [J.obj [("type", J.s "action"),
            ("action", J.obj [("flow_token", J.s fb.flow_token),
              ("flow_action_data", J.obj [("flow_action", J.s fb.flow_action),
                ("navigate_screen", J.s fb.navigate_screen)])])]])] :: more)

/-- The copy-code block of `build_template_components`. -/
def copyCodeComponents : List CopyBtn → Except String (List J)
  | [] => .ok []
  | btn :: rest =>
    if btn.coupon_code = "" then .error "button_copy_code entries require coupon_code"
    else
      match copyCodeComponents rest with
      | .error e => .error e
      | .ok more => .ok (J.obj [("type", J.s "button"), ("sub_type", J.s "COPY_CODE"),
          ("index", J.s btn.index),
          ("parameters", J.arr [J.obj [("type", J.s "coupon_code"),
            ("coupon_code", J.s btn.coupon_code)]])] :: more)

/-- `WhatsAppClient.build_template_components` from `whatsapp_client.py`. -/
def build_template_components (header_type : String)
    (header_text header_media_id header_media_link : Option String)
    (body_params : List String) (button_params : Option (List (List String)))
    (button_flow : Option (List FlowBtn)) (button_copy_code : Option (List CopyBtn)) :
    Except String (List J) :=
  match headerComponent header_type header_text header_media_id header_media_link with
  | .error e => .error e
  | .ok hdr =>
    match (match button_flow with | none => Except.ok [] | some l => flowButtonComponents l) with
    | .error e => .error e
    | .ok flows =>
      match (match button_copy_code with | none => Except.ok [] | some l => copyCodeComponents l) with
      | .error e => .error e
      | .ok copies =>
        .ok (hdr ++ bodyComponent body_params ++ urlButtonComponents button_params ++ flows ++ copies)

/-- `WhatsAppClient.build_template_payload` from `whatsapp_client.py`. -/
def build_template_payload (toAddr template lang : String) (components : Option (List J)) : J :=
  let tmplFields := [("name", J.s template), ("language", J.obj [("code", J.s lang)])] ++
    (match components with
     | some cs => if cs.isEmpty then [] else [("components", J.arr cs)]
     | none => [])
  J.obj [("messaging_product", J.s "whatsapp"), ("to", J.s toAddr),
    ("type", J.s "template"), ("template", J.obj tmplFields)]

/-- The asset record returned by the media-upload collaborator
(`upload(path) -> dict with id, mime_type, path, uploaded_at`). -/
structure MediaRec where
  id : String
  mime_type : String
  path : String
  uploaded_at : Int

/-- The collaborator interface consumed by `_prepare_row`: the `client`
argument of the function.  Builders may raise (modelled by `Except`); the
concrete `WhatsAppClient` instantiates them with the total constructors
above. -/
structure ClientModel where
  upload_media : String → Except String MediaRec
  build_interactive_cta_url : String → String → String → String → Option String → Except String J
  build_interactive_cta_call : String → String → String → String → Option String → Except String J
  build_template_components : String → Option String → Option String → Option String →
    List String → Option (List (List String)) → Option (List FlowBtn) →
    Option (List CopyBtn) → Except String (List J)
  build_template_payload : String → String → String → Option (List J) → J

/-- The concrete `WhatsAppClient` payload constructors, parameterized by the
network upload capability. -/
def realClient (upload : String → Except String MediaRec) : ClientModel :=
  { upload_media := upload
    build_interactive_cta_url := fun t b u d f => .ok (build_interactive_cta_url t b u d f)
    build_interactive_cta_call := fun t b p d f => .ok (build_interactive_cta_call t b p d f)
    build_template_components := build_template_components
    build_template_payload := build_template_payload }

/-- Verdict of `_prepare_row`: `('ready', phone, payload, '')`,
`('skip', phone, None, reason)` or `('error', phone, None, reason)`. -/
inductive Prep where
  | skip (phone msg : String)
  | error (phone msg : String)
  | ready (phone : String) (payload : J)

/-- The stripped, lowered `msg_type` field with its `"template"` default. -/
def msgTypeOf (row : Row) : String := pyLower (pyStrip (pyOr (rowGet row "msg_type") "template"))

/-- The stripped, lowered `header_type` field with its `"none"` default. -/
def headerTypeOf (row : Row) : String := pyLower (pyStrip (pyOr (rowGet row "header_type") "none"))

/-- Membership of the media header kinds (`header_type in ("image", "video", "document")`). -/
def isMediaHeader (h : String) : Bool := h = "image" || h = "video" || h = "document"

/-- The interactive branch of `_prepare_row` (lines 173-214 of `send_batch.py`). -/
def prepareInteractive (client : ClientModel) (row : Row) (phone : String) : Prep :=
  let body_text := getS row "body_text"
  let footer_text := optS (getS row "footer_text")
  match findCta row with
  | none => .skip phone "interactive needs body_text and at least one CTA"
  | some sel =>
    if body_text = "" then .skip phone "interactive needs body_text and at least one CTA"
    else if sel.ctype = "copy_code" then .skip phone "interactive CTA does not support copy_code"
    else
      match (if sel.ctype = "call" then
          client.build_interactive_cta_call phone body_text (sel.phone.getD "")
            (if sel.text = "" then "Call" else sel.text) footer_text
        else
          client.build_interactive_cta_url phone body_text (sel.url.getD "")
            (if sel.text = "" then "View" else sel.text) footer_text) with
      | .error e => .error phone ("build_failed: " ++ e)
      | .ok payload => .ready phone payload

/-- The tail of the template branch of `_prepare_row`, after the media upload
step has produced the final `header_media_id`. -/
def finishTemplate (client : ClientModel) (row : Row) (phone template header_type : String)
    (header_media_id : Option String) : Prep :=
  let lang := pyStrip (pyOr (rowGet row "lang") "en_US")
  let header_text := match rowGet row "header_text" with
    | none => none
    | some s => if s = "" then none else some s
  let header_media_url := optS (getS row "header_media_url")
  let body_params := (parse_list (rowGet row "body_params") '|').getD []
  let button_params := match parse_button_params (rowGet row "button_params") with
    | some bp => some bp
    | none => infer_button_params_from_cta row
  let flow_buttons := collectFlow row (List.range 10)
  match collectCopyCode row 0 (List.range 10) with
  | .error e => .error phone e
  | .ok copy_code_buttons =>
    match client.build_template_components header_type header_text header_media_id
        header_media_url body_params button_params
        (if flow_buttons.isEmpty then none else some flow_buttons)
        (if copy_code_buttons.isEmpty then none else some copy_code_buttons) with
    | .error e => .error phone ("build_failed: " ++ e)
    | .ok components =>
      .ready phone (client.build_template_payload phone template lang
        (if components.isEmpty then none else some components))

/-- The template branch of `_prepare_row` (lines 217-287 of `send_batch.py`).
The second component of the result is the list of paths passed to the
media-upload collaborator (one entry per invocation). -/
def prepareTemplate (client : ClientModel) (row : Row) (phone : String) : Prep × List String :=
  let template := getS row "template"
  if template = "" then (.skip phone "missing template for template msg_type", [])
  else
    let header_type := headerTypeOf row
    let header_media_path := optS (getS row "header_media_path")
    let header_media_id_csv := optS (getS row "header_media_id")
    match (if isMediaHeader header_type && header_media_id_csv.isNone
           then header_media_path else none) with
    | some p =>
      match client.upload_media p with
      | .error e => (.error phone ("media_upload_failed: " ++ e), [p])
      | .ok info => (finishTemplate client row phone template header_type (some info.id), [p])
    | none => (finishTemplate client row phone template header_type header_media_id_csv, [])

/-- `_prepare_row` from `send_batch.py`, instrumented with the list of
media-upload invocations it performs. -/
def prepareRow (client : ClientModel) (row : Row) : Prep × List String :=
  let phone := getS row "phone"
  if phone = "" then (.skip "" "missing phone", [])
  else if msgTypeOf row = "interactive" then (prepareInteractive client row phone, [])
  else prepareTemplate client row phone

/-- The mutable aggregate counters of `BatchSendResult` that the dispatchers
update (`processed`, `sent`, `skipped`, `errors`, `aborted`); timestamps and
configuration echoes are omitted. -/
structure Stats where
  processed : Nat
  sent : Nat
  skipped : Nat
  errors : Nat
  aborted : Bool
deriving DecidableEq, Repr

def initStats : Stats := { processed := 0, sent := 0, skipped := 0, errors := 0, aborted := false }

/-- Overall disposition tally of a stats record. -/
def countsOf (st : Stats) : Nat := st.sent + st.skipped + st.errors

/-- Per-row accounting shared by the sequential loop body and the async
worker: classify the `_prepare_row` verdict, and for a ready payload perform
the send (or dry run).  `sendOk i` tells whether the network send of row `i`
succeeds (`_send_payload_sync` returns `"sent"`); under dry run no network
call happens and the row counts as sent. -/
def stepRow (client : ClientModel) (dryRun : Bool) (sendOk : Nat → Bool)
    (st : Stats) (it : Nat × Row) : Stats :=
  match (prepareRow client it.2).1 with
  | .skip _ _ => { st with skipped := st.skipped + 1 }
  | .error _ _ => { st with errors := st.errors + 1 }
  | .ready _ _ =>
    if dryRun || sendOk it.1 then
      { st with sent := st.sent + 1, processed := st.processed + 1 }
    else { st with errors := st.errors + 1 }

/-- The sequential dispatch loop of `run_batch_from_rows`: `stopAt i` tells
whether the cancellation event is observed set at row `i` (at the top-of-loop
check or while polling the pause flag); observing it marks the batch aborted
and breaks out of the loop. -/
def runSeqAux (client : ClientModel) (dryRun : Bool) (sendOk stopAt : Nat → Bool) :
    List (Nat × Row) → Stats → Stats
  | [], st => st
  | it :: rest, st =>
    if stopAt it.1 then { st with aborted := true }
    else runSeqAux client dryRun sendOk stopAt rest (stepRow client dryRun sendOk st it)

/-- `run_batch_from_rows` from `send_batch.py` (sequential mode), restricted
to the counter state it returns.  Rows are enumerated from 1 as in the
source. -/
def run_batch_from_rows (client : ClientModel) (dryRun : Bool) (sendOk stopAt : Nat → Bool)
    (rows : List Row) : Stats :=
  runSeqAux client dryRun sendOk stopAt (List.enumFrom 1 rows) initStats

/-- One async worker iteration of `async_run_batch_from_rows.worker` for a
dequeued `(index, row)` item.  `stopAt i` tells whether the worker observes
the cancellation event set while handling item `i` (at the entry check or
during the pause poll): it then marks the batch aborted and drops the item.
`obsAbort i` tells whether the worker's read of the shared `aborted` flag
after the pause loop sees the value previously written by another worker
(a stale read may miss it); if seen, the item is likewise dropped. -/
def asyncStep (client : ClientModel) (dryRun : Bool) (sendOk stopAt obsAbort : Nat → Bool)
    (st : Stats) (it : Nat × Row) : Stats :=
  if stopAt it.1 then { st with aborted := true }
  else if st.aborted && obsAbort it.1 then st
  else stepRow client dryRun sendOk st it

/-- `async_run_batch_from_rows` from `send_batch.py` (concurrent mode): the
queue is fully drained, each item receiving exactly one worker iteration;
`items` is the drain order, an interleaving-chosen permutation of the
enumerated rows.  Counter updates are serialized by the stats lock, so the
final state is the left fold of the per-item updates in drain order. -/
def async_run_batch_from_rows (client : ClientModel) (dryRun : Bool)
    (sendOk stopAt obsAbort : Nat → Bool) (items : List (Nat × Row)) : Stats :=
  items.foldl (asyncStep client dryRun sendOk stopAt obsAbort) initStats

/-- `BatchProgressEvent` from `send_batch.py` (clock readings as rationals). -/
structure BatchProgressEvent where
  index : Nat
  phone : String
  status : String
  sent : Nat
  skipped : Nat
  errors : Nat
  dry_run : Bool
  total : Option Nat
  started_at : ℚ
  timestamp : ℚ
  message : String
deriving DecidableEq, Repr

/-- The `processed` property of `BatchProgressEvent`. -/
def BatchProgressEvent.processed (e : BatchProgressEvent) : Nat :=
  e.sent + e.skipped + e.errors

/-- The effective rate of `AsyncRateLimiter.__init__`: `max(1, rate)`. -/
def limiterRate (rate : Int) : Nat := (max 1 rate).toNat

/-- The eviction loop at the head of `AsyncRateLimiter.acquire`: pop expired
timestamps (`now - ts >= 1.0`) from the front of the queue. -/
def evict (now : ℚ) : List ℚ → List ℚ
  | [] => []
  | t :: rest => if 1 ≤ now - t then evict now rest else t :: rest

/-- One execution of the locked critical section of `acquire` at clock
reading `now`: evict, then either record the timestamp and return (success)
or leave the queue to sleep and retry (failure). -/
def attemptStep (rate : Nat) (q : List ℚ) (now : ℚ) : List ℚ × Bool :=
  let q' := evict now q
  if q'.length < rate then (q' ++ [now], true) else (q', false)

/-- A serialized run of critical-section executions at the (nondecreasing)
clock readings `ts`, starting from timestamp queue `q`; returns the times at
which `acquire` returned. -/
def runAttempts (rate : Nat) (q : List ℚ) : List ℚ → List ℚ
  | [] => []
  | t :: ts =>
    let s := attemptStep rate q t
    let rest := runAttempts rate s.1 ts
    if s.2 then t :: rest else rest

/-- Number of elements of `ts` lying in the wall-clock window `(a, a + 1]` of
duration one second. -/
def windowCount (a : ℚ) (ts : List ℚ) : Nat :=
  ts.countP (fun t => decide (a < t ∧ t ≤ a + 1))

/-- `MediaCache.set` (Python dict update, observed through lookups). -/
def cacheSet (cache : List (String × J)) (digest : String) (record : J) :
    List (String × J) :=
  (digest, record) :: cache

/-- `WhatsAppClient.upload_media` from `whatsapp_client.py`.  The file system
is `fs` (path to byte content), `hashFn` is the content digest
(`sha256:...`), `guessMime` is `mimetypes.guess_type`, `now` the wall clock
and `remote` the Graph API upload endpoint (its JSON response, or the raised
error for HTTP failures).  Returns the result, the updated cache, and the
list of remote upload invocations performed. -/
def uploadMedia (fs : String → Option (List Nat)) (hashFn : List Nat → String)
    (guessMime : String → Option String) (now : Int)
    (remote : String → Except String J) (cache : List (String × J))
    (path : String) (mimeArg : Option String) :
    Except String J × List (String × J) × List String :=
  match fs path with
  | none => (.error ("Media not found: " ++ path), cache, [])
  | some bytes =>
    let digest := hashFn bytes
    match (match List.lookup digest cache with
           | some c => if (jGet c "id").isSome then some c else none
           | none => none) with
    | some c => (.ok c, cache, [])
    | none =>
      let mime := match mimeArg with
        | some m => if m = "" then (guessMime path).getD "application/octet-stream" else m
        | none => (guessMime path).getD "application/octet-stream"
      match remote path with
      | .error e => (.error e, cache, [path])
      | .ok data =>
        match jGet data "id" with
        | none => (.error "Media upload response missing id", cache, [path])
        | some mid =>
          if jTruthy mid then
            let record := J.obj [("id", mid), ("mime_type", J.s mime),
              ("path", J.s path), ("uploaded_at", J.n now)]
            (.ok record, cacheSet cache digest record, [path])
          else (.error "Media upload response missing id", cache, [path])

/-- The derived worker count of `async_run_batch_from_rows`:
`min(max(1, msg_per_sec // 4 or 1), 32)` with Python floor division. -/
def derivedWorkerCount (msg_per_sec : Int) : Int :=
  min (max 1 (let d := Int.fdiv msg_per_sec 4; if d = 0 then 1 else d)) 32

/-- The worker-count selection of `async_run_batch_from_rows`
(`if async_workers and async_workers > 0`). -/
def workerCount (async_workers : Option Int) (msg_per_sec : Int) : Int :=
  match async_workers with
  | some w => if 0 < w then w else derivedWorkerCount msg_per_sec
  | none => derivedWorkerCount msg_per_sec

/-- The work-queue preload loops of `async_run_batch_from_rows`: all
enumerated `(index, row)` pairs pushed in order, then one sentinel (`None`)
per worker. -/
def buildQueue (rows : List Row) (workers : Nat) : List (Option (Nat × Row)) :=
  let q := (List.enumFrom 1 rows).foldl (fun acc it => acc ++ [some it]) []
  (List.range workers).foldl (fun acc _ => acc ++ [none]) q

/-- Extractor for the media parameter of the header component of a template
payload: `payload["template"]["components"][0]["parameters"][0]`. -/
def headerMediaParam (payload : J) : Option J :=
  match jGet payload "template" with
  | some tmpl =>
    match jGet tmpl "components" with
    | some (J.arr (c :: _)) =>
      match jGet c "parameters" with
      | some (J.arr (p :: _)) => some p
      | _ => none
    | _ => none
  | none => none

/-- A client whose network upload always fails (offline), used to evaluate
the row processor on concrete rows. -/
def netClient : ClientModel := realClient (fun _ => .error "network unavailable")

/-- A client whose network upload always succeeds with asset id `ASSET9`. -/
def okUploadClient : ClientModel :=
  realClient (fun p => .ok { id := "ASSET9", mime_type := "image/jpeg", path := p, uploaded_at := 0 })

/-- A client whose interactive URL builder raises. -/
def failUrlClient : ClientModel :=
  { netClient with build_interactive_cta_url := fun _ _ _ _ _ => .error "boom" }

def rowMissingPhone : Row := [("phone", "   "), ("msg_type", "interactive"), ("cta0_type", "copy_code")]

def rowTemplateOk : Row := [("phone", "123"), ("template", "promo")]

def demoRows : List Row := [rowTemplateOk, [("phone", "")]]

def c3row : Row := [("phone", "123"), ("template", "promo"), ("header_type", "image"),
  ("header_media_url", "https://x"), ("header_media_path", "local.jpg")]

def c3wrow : Row := [("phone", "123"), ("template", "promo"), ("header_type", "image"),
  ("header_media_path", "local.jpg")]

def c7row : Row := [("phone", ""), ("msg_type", "interactive"), ("body_text", "hi"),
  ("cta0_type", "copy_code")]

def w7row : Row := [("phone", "123"), ("msg_type", "interactive"), ("body_text", "hi"),
  ("cta0_type", "copy_code")]

def w5row : Row := [("phone", "123"), ("msg_type", "interactive"), ("body_text", "hi"),
  ("cta1_type", "url"), ("cta1_url", "https://ex.com")]

def fsW : String → Option (List Nat) := fun p =>
  if p = "a.jpg" ∨ p = "b.jpg" then some [7, 7] else none

def hashW : List Nat → String := fun b => "sha256:" ++ toString b.length

def remW : String → Except String J := fun _ => .ok (J.obj [("id", J.s "MID1")])

def mimeW : String → Option String := fun _ => some "image/jpeg"

def recW : J := J.obj [("id", J.s "MID1"), ("mime_type", J.s "image/jpeg"),
  ("path", J.s "a.jpg"), ("uploaded_at", J.n 7)]

def cacheW : List (String × J) := [("sha256:2", recW)]

/-! Invariant lemmas about the dispatch loops, shared by several claims. -/

theorem stepRow_countsOf (client : ClientModel) (dryRun : Bool) (sendOk : Nat → Bool)
    (st : Stats) (it : Nat × Row) :
    countsOf (stepRow client dryRun sendOk st it) = countsOf st + 1 := by
  unfold stepRow
  cases (prepareRow client it.2).1 with
  | skip ph m => simp [countsOf] <;> omega
  | error ph m => simp [countsOf] <;> omega
  | ready ph p =>
    rcases Bool.eq_false_or_eq_true (dryRun || sendOk it.1) with h | h <;>
      simp [h, countsOf] <;> omega

theorem stepRow_aborted (client : ClientModel) (dryRun : Bool) (sendOk : Nat → Bool)
    (st : Stats) (it : Nat × Row) :
    (stepRow client dryRun sendOk st it).aborted = st.aborted := by
  unfold stepRow
  cases (prepareRow client it.2).1 with
  | skip ph m => simp
  | error ph m => simp
  | ready ph p =>
    rcases Bool.eq_false_or_eq_true (dryRun || sendOk it.1) with h | h <;> simp [h]

theorem stepRow_ps (client : ClientModel) (dryRun : Bool) (sendOk : Nat → Bool)
    (st : Stats) (it : Nat × Row) (h : st.processed = st.sent) :
    (stepRow client dryRun sendOk st it).processed = (stepRow client dryRun sendOk st it).sent := by
  unfold stepRow
  cases (prepareRow client it.2).1 with
  | skip ph m => simpa using h
  | error ph m => simpa using h
  | ready ph p =>
    rcases Bool.eq_false_or_eq_true (dryRun || sendOk it.1) with hb | hb <;> simp [hb, h]

theorem runSeqAux_counts_le (client : ClientModel) (dryRun : Bool) (sendOk stopAt : Nat → Bool) :
    ∀ (l : List (Nat × Row)) (st : Stats),
      countsOf (runSeqAux client dryRun sendOk stopAt l st) ≤ countsOf st + l.length
  | [], st => by simp [runSeqAux]
  | it :: rest, st => by
    unfold runSeqAux
    split
    · simp [countsOf] <;> omega
    · have h := runSeqAux_counts_le client dryRun sendOk stopAt rest
        (stepRow client dryRun sendOk st it)
      have h2 := stepRow_countsOf client dryRun sendOk st it
      simp only [List.length_cons]
      omega

theorem runSeqAux_complete (client : ClientModel) (dryRun : Bool) (sendOk stopAt : Nat → Bool) :
    ∀ (l : List (Nat × Row)) (st : Stats),
      (runSeqAux client dryRun sendOk stopAt l st).aborted = false →
      st.aborted = false ∧
        countsOf (runSeqAux client dryRun sendOk stopAt l st) = countsOf st + l.length
  | [], st => by simp [runSeqAux]
  | it :: rest, st => by
    unfold runSeqAux
    split
    · intro h; simp at h
    · intro h
      have ih := runSeqAux_complete client dryRun sendOk stopAt rest
        (stepRow client dryRun sendOk st it) h
      have h2 := stepRow_countsOf client dryRun sendOk st it
      have h3 := stepRow_aborted client dryRun sendOk st it
      refine ⟨by rw [← h3]; exact ih.1, ?_⟩
      simp only [List.length_cons]
      omega

theorem runSeqAux_nostop (client : ClientModel) (dryRun : Bool) (sendOk stopAt : Nat → Bool) :
    ∀ (l : List (Nat × Row)) (st : Stats), (∀ it ∈ l, stopAt it.1 = false) →
      (runSeqAux client dryRun sendOk stopAt l st).aborted = st.aborted ∧
        countsOf (runSeqAux client dryRun sendOk stopAt l st) = countsOf st + l.length
  | [], st => by simp [runSeqAux]
  | it :: rest, st => by
    intro hns
    unfold runSeqAux
    rw [if_neg (by simp [hns it (by simp)])]
    have ih := runSeqAux_nostop client dryRun sendOk stopAt rest
      (stepRow client dryRun sendOk st it) (fun x hx => hns x (by simp [hx]))
    have h2 := stepRow_countsOf client dryRun sendOk st it
    have h3 := stepRow_aborted client dryRun sendOk st it
    refine ⟨by rw [ih.1, h3], ?_⟩
    simp only [List.length_cons]
    omega

theorem runSeqAux_allstop (client : ClientModel) (dryRun : Bool) (sendOk stopAt : Nat → Bool)
    (it : Nat × Row) (rest : List (Nat × Row)) (st : Stats)
    (hs : ∀ x ∈ it :: rest, stopAt x.1 = true) :
    runSeqAux client dryRun sendOk stopAt (it :: rest) st = { st with aborted := true } := by
  unfold runSeqAux
  rw [if_pos (hs it (by simp))]

theorem runSeqAux_ps (client : ClientModel) (dryRun : Bool) (sendOk stopAt : Nat → Bool) :
    ∀ (l : List (Nat × Row)) (st : Stats), st.processed = st.sent →
      (runSeqAux client dryRun sendOk stopAt l st).processed =
        (runSeqAux client dryRun sendOk stopAt l st).sent
  | [], st => by simp [runSeqAux]
  | it :: rest, st => by
    intro h
    unfold runSeqAux
    split
    · simpa using h
    · exact runSeqAux_ps client dryRun sendOk stopAt rest _
        (stepRow_ps client dryRun sendOk st it h)

theorem asyncStep_aborted_mono (client : ClientModel) (dryRun : Bool)
    (sendOk stopAt obsAbort : Nat → Bool) (st : Stats) (it : Nat × Row)
    (h : st.aborted = true) :
    (asyncStep client dryRun sendOk stopAt obsAbort st it).aborted = true := by
  unfold asyncStep
  split
  · rfl
  · split
    · exact h
    · rw [stepRow_aborted]; exact h

theorem asyncFold_aborted_mono (client : ClientModel) (dryRun : Bool)
    (sendOk stopAt obsAbort : Nat → Bool) :
    ∀ (l : List (Nat × Row)) (st : Stats), st.aborted = true →
      (l.foldl (asyncStep client dryRun sendOk stopAt obsAbort) st).aborted = true
  | [], st => fun h => h
  | it :: rest, st => fun h => by
    rw [List.foldl_cons]
    exact asyncFold_aborted_mono client dryRun sendOk stopAt obsAbort rest _
      (asyncStep_aborted_mono client dryRun sendOk stopAt obsAbort st it h)

theorem asyncFold_counts_le (client : ClientModel) (dryRun : Bool)
    (sendOk stopAt obsAbort : Nat → Bool) :
    ∀ (l : List (Nat × Row)) (st : Stats),
      countsOf (l.foldl (asyncStep client dryRun sendOk stopAt obsAbort) st) ≤
        countsOf st + l.length
  | [], st => by simp
  | it :: rest, st => by
    rw [List.foldl_cons]
    have ih := asyncFold_counts_le client dryRun sendOk stopAt obsAbort rest
      (asyncStep client dryRun sendOk stopAt obsAbort st it)
    have hone : countsOf (asyncStep client dryRun sendOk stopAt obsAbort st it) ≤
        countsOf st + 1 := by
      unfold asyncStep
      split
      · simp [countsOf] <;> omega
      · split
        · simp
        · rw [stepRow_countsOf]
    simp only [List.length_cons]
    omega

theorem asyncFold_complete (client : ClientModel) (dryRun : Bool)
    (sendOk stopAt obsAbort : Nat → Bool) :
    ∀ (l : List (Nat × Row)) (st : Stats),
      (l.foldl (asyncStep client dryRun sendOk stopAt obsAbort) st).aborted = false →
      st.aborted = false ∧
        countsOf (l.foldl (asyncStep client dryRun sendOk stopAt obsAbort) st) =
          countsOf st + l.length
  | [], st => by simp
  | it :: rest, st => by
    rw [List.foldl_cons]
    intro h
    have hstep : asyncStep client dryRun sendOk stopAt obsAbort st it =
        stepRow client dryRun sendOk st it ∧ st.aborted = false := by
      by_cases h1 : stopAt it.1 = true
      · exfalso
        have : (asyncStep client dryRun sendOk stopAt obsAbort st it).aborted = true := by
          unfold asyncStep; rw [if_pos h1]
        have := asyncFold_aborted_mono client dryRun sendOk stopAt obsAbort rest _ this
        rw [this] at h; exact absurd h (by simp)
      · by_cases h2 : st.aborted = true
        · exfalso
          have : (asyncStep client dryRun sendOk stopAt obsAbort st it).aborted = true :=
            asyncStep_aborted_mono client dryRun sendOk stopAt obsAbort st it h2
          have := asyncFold_aborted_mono client dryRun sendOk stopAt obsAbort rest _ this
          rw [this] at h; exact absurd h (by simp)
        · refine ⟨?_, by simpa using h2⟩
          unfold asyncStep
          rw [if_neg h1, if_neg (by simp [Bool.eq_false_iff.mpr h2])]
    rw [hstep.1] at h ⊢
    have ih := asyncFold_complete client dryRun sendOk stopAt obsAbort rest _ h
    have h2 := stepRow_countsOf client dryRun sendOk st it
    simp only [List.length_cons]
    exact ⟨hstep.2, by omega⟩

theorem asyncFold_nostop (client : ClientModel) (dryRun : Bool)
    (sendOk stopAt obsAbort : Nat → Bool) :
    ∀ (l : List (Nat × Row)) (st : Stats), (∀ it ∈ l, stopAt it.1 = false) →
      st.aborted = false →
      (l.foldl (asyncStep client dryRun sendOk stopAt obsAbort) st).aborted = false ∧
        countsOf (l.foldl (asyncStep client dryRun sendOk stopAt obsAbort) st) =
          countsOf st + l.length
  | [], st => by simp
  | it :: rest, st => by
    intro hns hab
    rw [List.foldl_cons]
    have hstep : asyncStep client dryRun sendOk stopAt obsAbort st it =
        stepRow client dryRun sendOk st it := by
      unfold asyncStep
      rw [if_neg (by simp [hns it (by simp)]), if_neg (by simp [hab])]
    rw [hstep]
    have ih := asyncFold_nostop client dryRun sendOk stopAt obsAbort rest
      (stepRow client dryRun sendOk st it) (fun x hx => hns x (by simp [hx]))
      (by rw [stepRow_aborted]; exact hab)
    have h2 := stepRow_countsOf client dryRun sendOk st it
    simp only [List.length_cons]
    exact ⟨ih.1, by omega⟩

theorem asyncFold_allstop (client : ClientModel) (dryRun : Bool)
    (sendOk stopAt obsAbort : Nat → Bool) :
    ∀ (l : List (Nat × Row)) (st : Stats), l ≠ [] → (∀ it ∈ l, stopAt it.1 = true) →
      l.foldl (asyncStep client dryRun sendOk stopAt obsAbort) st = { st with aborted := true }
  | [], _, h, _ => absurd rfl h
  | it :: rest, st, _, hs => by
    rw [List.foldl_cons]
    have hstep : asyncStep client dryRun sendOk stopAt obsAbort st it =
        { st with aborted := true } := by
      unfold asyncStep; rw [if_pos (hs it (by simp))]
    rw [hstep]
    rcases rest with _ | ⟨it2, rest2⟩
    · simp
    · have := asyncFold_allstop client dryRun sendOk stopAt obsAbort (it2 :: rest2)
        { st with aborted := true } (by simp) (fun x hx => hs x (by simp at hx ⊢; tauto))
      rw [this]

theorem asyncFold_ps (client : ClientModel) (dryRun : Bool)
    (sendOk stopAt obsAbort : Nat → Bool) :
    ∀ (l : List (Nat × Row)) (st : Stats), st.processed = st.sent →
      (l.foldl (asyncStep client dryRun sendOk stopAt obsAbort) st).processed =
        (l.foldl (asyncStep client dryRun sendOk stopAt obsAbort) st).sent
  | [], st => fun h => h
  | it :: rest, st => by
    intro h
    rw [List.foldl_cons]
    refine asyncFold_ps client dryRun sendOk stopAt obsAbort rest _ ?_
    unfold asyncStep
    split
    · simpa using h
    · split
      · exact h
      · exact stepRow_ps client dryRun sendOk st it h

theorem foldl_append_map {α β : Type} (f : α → β) : ∀ (l : List α) (init : List β),
    l.foldl (fun acc x => acc ++ [f x]) init = init ++ l.map f
  | [], init => by simp
  | x :: l, init => by simp [foldl_append_map f l]

theorem foldl_append_const {γ β : Type} (c : β) : ∀ (l : List γ) (init : List β),
    l.foldl (fun acc _ => acc ++ [c]) init = init ++ List.replicate l.length c
  | [], init => by simp
  | x :: l, init => by simp [foldl_append_const c l, List.replicate_succ]

/-! Claim theorems. -/

/-- C1: for every batch run (sequential `run_batch_from_rows` or concurrent
`async_run_batch_from_rows`) over `N` rows, the final `BatchSendResult`
satisfies `sent + skipped + errors ≤ N` at all times (after any prefix of the
processing order); when the run completes with no cancellation,
`sent + skipped + errors = N` and `aborted = false`; strict inequality occurs
only when `aborted = true`. -/
theorem C1_batch_invariant (client : ClientModel) (dryRun : Bool)
    (sendOk stopAt obsAbort : Nat → Bool) (rows : List Row) (items : List (Nat × Row))
    (hperm : items.Perm (List.enumFrom 1 rows)) :
    (∀ k, countsOf (runSeqAux client dryRun sendOk stopAt
        ((List.enumFrom 1 rows).take k) initStats) ≤ rows.length)
    ∧ (∀ k, countsOf ((items.take k).foldl
        (asyncStep client dryRun sendOk stopAt obsAbort) initStats) ≤ rows.length)
    ∧ countsOf (run_batch_from_rows client dryRun sendOk stopAt rows) ≤ rows.length
    ∧ countsOf (async_run_batch_from_rows client dryRun sendOk stopAt obsAbort items) ≤
        rows.length
    ∧ ((∀ i, stopAt i = false) →
        countsOf (run_batch_from_rows client dryRun sendOk stopAt rows) = rows.length
        ∧ (run_batch_from_rows client dryRun sendOk stopAt rows).aborted = false
        ∧ countsOf (async_run_batch_from_rows client dryRun sendOk stopAt obsAbort items) =
            rows.length
        ∧ (async_run_batch_from_rows client dryRun sendOk stopAt obsAbort items).aborted = false)
    ∧ (countsOf (run_batch_from_rows client dryRun sendOk stopAt rows) < rows.length →
        (run_batch_from_rows client dryRun sendOk stopAt rows).aborted = true)
    ∧ (countsOf (async_run_batch_from_rows client dryRun sendOk stopAt obsAbort items) <
          rows.length →
        (async_run_batch_from_rows client dryRun sendOk stopAt obsAbort items).aborted = true) := by
  have hlen : items.length = rows.length := by
    rw [hperm.length_eq, List.enumFrom_length]
  have hcnt0 : countsOf initStats = 0 := rfl
  refine ⟨?_, ?_, ?_, ?_, ?_, ?_, ?_⟩
  · intro k
    have h := runSeqAux_counts_le client dryRun sendOk stopAt
      ((List.enumFrom 1 rows).take k) initStats
    have h2 : ((List.enumFrom 1 rows).take k).length ≤ rows.length := by
      rw [List.length_take, List.enumFrom_length]; omega
    omega
  · intro k
    have h := asyncFold_counts_le client dryRun sendOk stopAt obsAbort (items.take k) initStats
    have h2 : (items.take k).length ≤ rows.length := by
      rw [List.length_take]; omega
    omega
  · have h := runSeqAux_counts_le client dryRun sendOk stopAt (List.enumFrom 1 rows) initStats
    rw [List.enumFrom_length] at h
    unfold run_batch_from_rows
    omega
  · have h := asyncFold_counts_le client dryRun sendOk stopAt obsAbort items initStats
    rw [hlen] at h
    unfold async_run_batch_from_rows
    omega
  · intro hns
    have h1 := runSeqAux_nostop client dryRun sendOk stopAt (List.enumFrom 1 rows) initStats
      (fun it _ => hns it.1)
    have h2 := asyncFold_nostop client dryRun sendOk stopAt obsAbort items initStats
      (fun it _ => hns it.1) rfl
    rw [List.enumFrom_length] at h1
    rw [hlen] at h2
    have h1a := h1.1
    have h1c := h1.2
    have h2a := h2.1
    have h2c := h2.2
    unfold run_batch_from_rows async_run_batch_from_rows
    exact ⟨by omega, by rw [h1a]; rfl, by omega, h2a⟩
  · intro hlt
    by_contra hab
    have hab' : (runSeqAux client dryRun sendOk stopAt (List.enumFrom 1 rows) initStats).aborted =
        false := by
      unfold run_batch_from_rows at hab
      simpa using hab
    have h := runSeqAux_complete client dryRun sendOk stopAt (List.enumFrom 1 rows) initStats hab'
    rw [List.enumFrom_length] at h
    have hc := h.2
    unfold run_batch_from_rows at hlt
    omega
  · intro hlt
    by_contra hab
    have hab' : (items.foldl (asyncStep client dryRun sendOk stopAt obsAbort) initStats).aborted =
        false := by
      unfold async_run_batch_from_rows at hab
      simpa using hab
    have h := asyncFold_complete client dryRun sendOk stopAt obsAbort items initStats hab'
    rw [hlen] at h
    have hc := h.2
    unfold async_run_batch_from_rows at hlt
    omega

/-- Witness for C1 at a concrete two-row batch with no cancellation: both
dispatchers account for every row and do not abort. -/
theorem C1_batch_invariant_witness :
    countsOf (run_batch_from_rows netClient false (fun _ => true) (fun _ => false) demoRows) = 2
    ∧ (run_batch_from_rows netClient false (fun _ => true) (fun _ => false) demoRows).aborted =
        false
    ∧ countsOf (async_run_batch_from_rows netClient false (fun _ => true) (fun _ => false)
        (fun _ => true) (List.enumFrom 1 demoRows)) = 2
    ∧ (async_run_batch_from_rows netClient false (fun _ => true) (fun _ => false)
        (fun _ => true) (List.enumFrom 1 demoRows)).aborted = false := by
  have h := C1_batch_invariant netClient false (fun _ => true) (fun _ => false) (fun _ => true)
    demoRows (List.enumFrom 1 demoRows) (List.Perm.refl _)
  have h2 := h.2.2.2.2.1 (fun _ => rfl)
  exact ⟨h2.1, h2.2.1, h2.2.2.1, h2.2.2.2⟩

/-- C4: for every batch where the cancellation signal is observed set at every
check, the result of either dispatcher has `aborted = true` and zero
dispositions (`sent + skipped + errors = 0 < N` for a non-empty batch), the
previously accumulated counts of the initial state being preserved; the
dispatchers only read the cancellation signal (`stopAt`), never write it. -/
theorem C4_cancel_before_start (client : ClientModel) (dryRun : Bool)
    (sendOk obsAbort stopAt : Nat → Bool) (rows : List Row) (items : List (Nat × Row))
    (hne : rows ≠ []) (hperm : items.Perm (List.enumFrom 1 rows))
    (hstop : ∀ i, stopAt i = true) :
    (run_batch_from_rows client dryRun sendOk stopAt rows).aborted = true
    ∧ countsOf (run_batch_from_rows client dryRun sendOk stopAt rows) = 0
    ∧ countsOf (run_batch_from_rows client dryRun sendOk stopAt rows) < rows.length
    ∧ (async_run_batch_from_rows client dryRun sendOk stopAt obsAbort items).aborted = true
    ∧ countsOf (async_run_batch_from_rows client dryRun sendOk stopAt obsAbort items) = 0
    ∧ countsOf (async_run_batch_from_rows client dryRun sendOk stopAt obsAbort items) <
        rows.length := by
  have hpos : 0 < rows.length := List.length_pos.mpr hne
  obtain ⟨r0, rs, hr⟩ : ∃ r0 rs, rows = r0 :: rs := by
    cases rows with
    | nil => exact absurd rfl hne
    | cons a l => exact ⟨a, l, rfl⟩
  have hseq : run_batch_from_rows client dryRun sendOk stopAt rows =
      { initStats with aborted := true } := by
    rw [run_batch_from_rows, hr]
    exact runSeqAux_allstop client dryRun sendOk stopAt _ _ _ (fun x _ => hstop x.1)
  have hitems : items ≠ [] := by
    intro h
    rw [h] at hperm
    have hl := hperm.length_eq
    rw [List.enumFrom_length] at hl
    simp at hl
    omega
  have hasync : async_run_batch_from_rows client dryRun sendOk stopAt obsAbort items =
      { initStats with aborted := true } :=
    asyncFold_allstop client dryRun sendOk stopAt obsAbort items initStats hitems
      (fun x _ => hstop x.1)
  rw [hseq, hasync]
  exact ⟨rfl, rfl, hpos, rfl, rfl, hpos⟩

/-- Witness for C4 at a concrete one-row batch with the cancellation signal
always set. -/
theorem C4_cancel_before_start_witness :
    (run_batch_from_rows netClient false (fun _ => true) (fun _ => true) [rowTemplateOk]).aborted =
      true
    ∧ countsOf (run_batch_from_rows netClient false (fun _ => true) (fun _ => true)
        [rowTemplateOk]) = 0
    ∧ (async_run_batch_from_rows netClient false (fun _ => true) (fun _ => true) (fun _ => false)
        (List.enumFrom 1 [rowTemplateOk])).aborted = true := by
  have h := C4_cancel_before_start netClient false (fun _ => true) (fun _ => false)
    (fun _ => true) [rowTemplateOk] (List.enumFrom 1 [rowTemplateOk]) (by simp)
    (List.Perm.refl _) (fun _ => rfl)
  exact ⟨h.1, h.2.1, h.2.2.2.1⟩

/-- C10: in both dispatch modes the `processed` counter is incremented only
together with `sent` (successful send or dry run), so from any state with
`processed = sent` both loops preserve `processed = sent`; the
`BatchProgressEvent.processed` property is instead the derived sum
`sent + skipped + errors`, and the two notions genuinely differ (at a
one-row batch whose row is skipped, the final result has `processed = 0`
but `sent + skipped + errors = 1`). -/
theorem C10_processed_equals_sent (client : ClientModel) (dryRun : Bool)
    (sendOk stopAt obsAbort : Nat → Bool) (l items : List (Nat × Row)) (st : Stats)
    (h : st.processed = st.sent) :
    (runSeqAux client dryRun sendOk stopAt l st).processed =
      (runSeqAux client dryRun sendOk stopAt l st).sent
    ∧ (items.foldl (asyncStep client dryRun sendOk stopAt obsAbort) st).processed =
        (items.foldl (asyncStep client dryRun sendOk stopAt obsAbort) st).sent
    ∧ (∀ e : BatchProgressEvent, e.processed = e.sent + e.skipped + e.errors)
    ∧ (run_batch_from_rows netClient false (fun _ => true) (fun _ => false)
          [[("phone", "")]]).processed ≠
        countsOf (run_batch_from_rows netClient false (fun _ => true) (fun _ => false)
          [[("phone", "")]]) := by
  refine ⟨runSeqAux_ps client dryRun sendOk stopAt l st h,
    asyncFold_ps client dryRun sendOk stopAt obsAbort items st h,
    fun e => rfl, ?_⟩
  decide

/-- Witness for C10 at a concrete batch (both dispatchers, starting from the
initial state). -/
theorem C10_processed_equals_sent_witness :
    (run_batch_from_rows netClient false (fun _ => true) (fun _ => false) demoRows).processed =
      (run_batch_from_rows netClient false (fun _ => true) (fun _ => false) demoRows).sent
    ∧ (async_run_batch_from_rows netClient false (fun _ => true) (fun _ => false) (fun _ => true)
        (List.enumFrom 1 demoRows)).processed =
      (async_run_batch_from_rows netClient false (fun _ => true) (fun _ => false) (fun _ => true)
        (List.enumFrom 1 demoRows)).sent := by
  have h := C10_processed_equals_sent netClient false (fun _ => true) (fun _ => false)
    (fun _ => true) (List.enumFrom 1 demoRows) (List.enumFrom 1 demoRows) initStats rfl
  exact ⟨h.1, h.2.1⟩

/-- C8: a row whose destination address field is missing, empty or
whitespace-only (its stripped value is empty) is skipped with reason
`missing phone`, regardless of every other field of the row and of the
client. -/
theorem C8_missing_phone (client : ClientModel) (row : Row)
    (h : getS row "phone" = "") :
    prepareRow client row = (.skip "" "missing phone", []) := by
  unfold prepareRow
  simp [h]

/-- Witness for C8 at a whitespace-only phone field on an otherwise
interactive-looking row. -/
theorem C8_missing_phone_witness :
    prepareRow netClient rowMissingPhone = (.skip "" "missing phone", []) :=
  C8_missing_phone netClient rowMissingPhone (by decide)

/-- C9: in concurrent mode, when no worker count is configured (or a
non-positive one is given), the pool size equals `clamp(rate / 4, 1, 32)`
with Python floor division on the configured messages-per-second rate, and
the work queue is pre-loaded with all `(index, row)` pairs followed by
exactly one sentinel per worker. -/
theorem C9_worker_pool (async_workers : Option Int) (msg_per_sec : Int) (rows : List Row)
    (h : async_workers = none ∨ ∃ w, async_workers = some w ∧ w ≤ 0) :
    workerCount async_workers msg_per_sec = max 1 (min (Int.fdiv msg_per_sec 4) 32)
    ∧ buildQueue rows (workerCount async_workers msg_per_sec).toNat =
        (List.enumFrom 1 rows).map some ++
          List.replicate (workerCount async_workers msg_per_sec).toNat none := by
  have hderived : workerCount async_workers msg_per_sec = derivedWorkerCount msg_per_sec := by
    rcases h with h | ⟨w, hw, hw0⟩
    · rw [h]; rfl
    · rw [hw]
      show (if 0 < w then w else derivedWorkerCount msg_per_sec) = derivedWorkerCount msg_per_sec
      rw [if_neg (by omega)]
  have hclamp : derivedWorkerCount msg_per_sec = max 1 (min (Int.fdiv msg_per_sec 4) 32) := by
    show min (max 1 (if Int.fdiv msg_per_sec 4 = 0 then 1 else Int.fdiv msg_per_sec 4)) 32 = _
    split <;> omega
  refine ⟨hderived.trans hclamp, ?_⟩
  show (List.range (workerCount async_workers msg_per_sec).toNat).foldl
      (fun acc _ => acc ++ [none])
      ((List.enumFrom 1 rows).foldl (fun acc it => acc ++ [some it]) []) = _
  rw [foldl_append_map, foldl_append_map, List.nil_append, List.map_const',
    List.length_range]

/-- Witness for C9 with no configured worker count, rate 80 and one row:
pool size 20, queue of one row pair and twenty sentinels. -/
theorem C9_worker_pool_witness :
    workerCount none 80 = max 1 (min (Int.fdiv 80 4) 32)
    ∧ buildQueue [rowTemplateOk] (workerCount none 80).toNat =
        (List.enumFrom 1 [rowTemplateOk]).map some ++
          List.replicate (workerCount none 80).toNat none :=
  C9_worker_pool none 80 [rowTemplateOk] (Or.inl rfl)

/-- C6: uploading a file whose byte content is identical to a previously
(successfully) uploaded file returns the identical asset record, leaves the
cache unchanged and performs no remote upload invocation: `upload_media` is
memoized by the content digest of the file bytes. -/
theorem C6_upload_idempotent (fs : String → Option (List Nat)) (hashFn : List Nat → String)
    (guessMime : String → Option String) (now now2 : Int)
    (remote remote2 : String → Except String J) (cache : List (String × J))
    (path path2 : String) (mimeArg mimeArg2 : Option String) (bytes : List Nat)
    (r : J) (cache2 : List (String × J)) (calls : List String)
    (h1 : fs path = some bytes) (h2 : fs path2 = some bytes)
    (hup : uploadMedia fs hashFn guessMime now remote cache path mimeArg =
      (.ok r, cache2, calls)) :
    uploadMedia fs hashFn guessMime now2 remote2 cache2 path2 mimeArg2 = (.ok r, cache2, []) := by
  simp only [uploadMedia, h1] at hup
  simp only [uploadMedia, h2]
  rcases hlk : List.lookup (hashFn bytes) cache with _ | c
  · simp only [hlk] at hup
    rcases hrem : remote path with e | data
    · simp [hrem] at hup
    · rcases hjd : jGet data "id" with _ | mid
      · simp [hrem, hjd] at hup
      · cases htr : jTruthy mid with
        | false => simp [hrem, hjd, htr] at hup
        | true =>
          simp [hrem, hjd, htr] at hup
          obtain ⟨hr, hc2, hcalls⟩ := hup
          subst hr
          subst hc2
          simp [cacheSet, jGet]
  · simp only [hlk] at hup
    cases hid : (jGet c "id").isSome with
    | false =>
      simp only [hid, Bool.false_eq_true, if_false] at hup
      rcases hrem : remote path with e | data
      · simp [hrem] at hup
      · rcases hjd : jGet data "id" with _ | mid
        · simp [hrem, hjd] at hup
        · cases htr : jTruthy mid with
          | false => simp [hrem, hjd, htr] at hup
          | true =>
            simp [hrem, hjd, htr] at hup
            obtain ⟨hr, hc2, hcalls⟩ := hup
            subst hr
            subst hc2
            simp [cacheSet, jGet]
    | true =>
      simp [hid] at hup
      obtain ⟨hr, hc2, hcalls⟩ := hup
      subst hr
      subst hc2
      simp [hlk, hid]

/-- Witness for C6: a second upload of different path `b.jpg` with the same
two bytes as the already uploaded `a.jpg` returns the first record untouched
and performs no remote call. -/
theorem C6_upload_idempotent_witness :
    uploadMedia fsW hashW mimeW 8 remW cacheW "b.jpg" none = (.ok recW, cacheW, []) :=
  C6_upload_idempotent fsW hashW mimeW 7 8 remW remW [] "a.jpg" "b.jpg" none none [7, 7]
    recW cacheW ["a.jpg"] rfl rfl rfl

theorem scanCta_spec (row : Row) : ∀ (l : List Nat) (sel : CtaSel),
    l.Sorted (· < ·) → scanCta row l = some sel →
    sel.n ∈ l ∧ sel = mkCtaSel row sel.n ∧ ctaTypeAt row sel.n ≠ "" ∧
      ∀ m ∈ l, m < sel.n → ctaTypeAt row m = ""
  | [], sel => by simp [scanCta]
  | a :: l, sel => by
    intro hs hscan
    rw [scanCta] at hscan
    by_cases ha : ctaTypeAt row a = ""
    · rw [if_pos ha] at hscan
      have ih := scanCta_spec row l sel hs.of_cons hscan
      refine ⟨by simp [ih.1], ih.2.1, ih.2.2.1, ?_⟩
      intro m hm hlt
      rcases List.mem_cons.mp hm with rfl | hm'
      · exact ha
      · exact ih.2.2.2 m hm' hlt
    · rw [if_neg ha] at hscan
      have hsel : mkCtaSel row a = sel := by
        simpa using hscan
      subst hsel
      have hn : (mkCtaSel row a).n = a := rfl
      refine ⟨by rw [hn]; exact List.mem_cons_self a l, rfl, ha, ?_⟩
      intro m hm hlt
      rw [hn] at hlt
      rcases List.mem_cons.mp hm with rfl | hm'
      · omega
      · have := List.rel_of_sorted_cons hs m hm'
        omega

/-- C7 counterexample: an interactive row whose first call-to-action
descriptor has kind `copy_code` but whose phone field is empty is skipped
with reason `missing phone`, not with a reason stating that `copy_code` is
unsupported, contradicting the claim's parenthetical. -/
theorem C7_copy_code_counterexample :
    msgTypeOf c7row = "interactive"
    ∧ findCta c7row = some (mkCtaSel c7row 0)
    ∧ (mkCtaSel c7row 0).ctype = "copy_code"
    ∧ (prepareRow netClient c7row).1 = .skip "" "missing phone"
    ∧ "missing phone" ≠ "interactive CTA does not support copy_code" :=
  ⟨rfl, rfl, rfl, rfl, by decide⟩

/-- C7 (amended): for every interactive-kind row whose first call-to-action
descriptor has kind `copy_code`, the row processor returns `Skip` — never
`Error` and never `Ready`; and when the row moreover has a non-empty phone
and non-empty body text, the skip reason states that `copy_code` is
unsupported. -/
theorem C7_copy_code_amended (client : ClientModel) (row : Row) (sel : CtaSel)
    (hmt : msgTypeOf row = "interactive") (hsel : findCta row = some sel)
    (hcc : sel.ctype = "copy_code") :
    (∃ ph msg, (prepareRow client row).1 = .skip ph msg)
    ∧ (getS row "phone" ≠ "" → getS row "body_text" ≠ "" →
        (prepareRow client row).1 =
          .skip (getS row "phone") "interactive CTA does not support copy_code") := by
  constructor
  · by_cases hp : getS row "phone" = ""
    · refine ⟨"", "missing phone", ?_⟩
      unfold prepareRow
      simp [hp]
    · by_cases hb : getS row "body_text" = ""
      · refine ⟨getS row "phone", "interactive needs body_text and at least one CTA", ?_⟩
        unfold prepareRow prepareInteractive
        simp [hp, hmt, hsel, hb]
      · refine ⟨getS row "phone", "interactive CTA does not support copy_code", ?_⟩
        unfold prepareRow prepareInteractive
        simp [hp, hmt, hsel, hb, hcc]
  · intro hp hb
    unfold prepareRow prepareInteractive
    simp [hp, hmt, hsel, hb, hcc]

/-- Witness for the amended C7 at a concrete interactive row with phone and
body present and `cta0_type = copy_code`. -/
theorem C7_copy_code_witness :
    (prepareRow netClient w7row).1 = .skip "123" "interactive CTA does not support copy_code" :=
  (C7_copy_code_amended netClient w7row (mkCtaSel w7row 0) rfl rfl rfl).2
    (by decide) (by decide)

/-- C5: for every interactive-kind row with non-empty phone and body text
whose CTA scan selects `sel`, the selection is exactly the first descriptor
with a non-empty kind found scanning indices 0 through 9 in ascending order;
when its kind is `call` (resp. `url`), the call (resp. URL)
payload-construction entry point of the client is invoked, a raised
construction error `e` is converted to `Error("build_failed: " ++ e)` rather
than propagating, and a constructed payload yields `Ready`. -/
theorem C5_interactive_cta (client : ClientModel) (row : Row) (sel : CtaSel)
    (hmt : msgTypeOf row = "interactive") (hphone : getS row "phone" ≠ "")
    (hbody : getS row "body_text" ≠ "") (hsel : findCta row = some sel)
    (hncc : sel.ctype ≠ "copy_code") :
    (sel.n < 10 ∧ sel = mkCtaSel row sel.n ∧ ctaTypeAt row sel.n ≠ ""
      ∧ ∀ m < sel.n, ctaTypeAt row m = "")
    ∧ (sel.ctype = "call" →
        prepareRow client row =
          (match client.build_interactive_cta_call (getS row "phone") (getS row "body_text")
              (sel.phone.getD "") (if sel.text = "" then "Call" else sel.text)
              (optS (getS row "footer_text")) with
           | .error e => (.error (getS row "phone") ("build_failed: " ++ e), [])
           | .ok payload => (.ready (getS row "phone") payload, [])))
    ∧ (sel.ctype = "url" →
        prepareRow client row =
          (match client.build_interactive_cta_url (getS row "phone") (getS row "body_text")
              (sel.url.getD "") (if sel.text = "" then "View" else sel.text)
              (optS (getS row "footer_text")) with
           | .error e => (.error (getS row "phone") ("build_failed: " ++ e), [])
           | .ok payload => (.ready (getS row "phone") payload, []))) := by
  have hspec := scanCta_spec row (List.range 10) sel (List.sorted_lt_range 10) hsel
  have hlt10 : sel.n < 10 := List.mem_range.mp hspec.1
  refine ⟨⟨hlt10, hspec.2.1, hspec.2.2.1, ?_⟩, ?_, ?_⟩
  · intro m hm
    exact hspec.2.2.2 m (List.mem_range.mpr (lt_trans hm hlt10)) hm
  · intro hcall
    unfold prepareRow prepareInteractive
    rcases hx : client.build_interactive_cta_call (getS row "phone") (getS row "body_text")
        (sel.phone.getD "") (if sel.text = "" then "Call" else sel.text)
        (optS (getS row "footer_text")) with e | p <;>
      simp [hphone, hmt, hsel, hbody, hncc, hcall, hx]
  · intro hurl
    unfold prepareRow prepareInteractive
    rcases hx : client.build_interactive_cta_url (getS row "phone") (getS row "body_text")
        (sel.url.getD "") (if sel.text = "" then "View" else sel.text)
        (optS (getS row "footer_text")) with e | p <;>
      simp [hphone, hmt, hsel, hbody, hncc, hurl, hx]

/-- Witness for C5 at a concrete interactive row whose first non-empty CTA
is at index 1 with kind `url`, against a client whose URL builder raises:
the exception is converted to `build_failed`. -/
theorem C5_interactive_cta_witness :
    prepareRow failUrlClient w5row = (.error "123" "build_failed: boom", [])
    ∧ ctaTypeAt w5row 0 = "" := by
  have h := C5_interactive_cta failUrlClient w5row (mkCtaSel w5row 1) rfl (by decide)
    (by decide) rfl (by decide)
  exact ⟨h.2.2 rfl, h.1.2.2.2 0 (by decide)⟩

theorem headerComponent_media (htext hmurl : Option String) (ht mid : String)
    (hmed : isMediaHeader ht = true) (hmid : mid ≠ "") :
    headerComponent ht htext (some mid) hmurl =
      .ok [J.obj [("type", J.s "header"), ("parameters", J.arr [J.obj
        [("type", J.s ht), (ht, J.obj [("id", J.s mid)])]])]] := by
  have hm' : (ht = "image" ∨ ht = "video") ∨ ht = "document" := by
    simpa [isMediaHeader] using hmed
  rcases hm' with (h | h) | h <;> subst h
  · have hpl : pyLower "image" = "image" := by decide
    simp [headerComponent, hpl, pyTruthyS, hmid]
  · have hpl : pyLower "video" = "video" := by decide
    simp [headerComponent, hpl, pyTruthyS, hmid]
  · have hpl : pyLower "document" = "document" := by decide
    simp [headerComponent, hpl, pyTruthyS, hmid]

theorem build_template_components_media (htext hmurl : Option String)
    (bp : List String) (bps : Option (List (List String)))
    (fo : Option (List FlowBtn)) (co : Option (List CopyBtn)) (ht mid : String)
    (hmed : isMediaHeader ht = true) (hmid : mid ≠ "") (comps : List J)
    (hok : build_template_components ht htext (some mid) hmurl bp bps fo co = .ok comps) :
    ∃ rest, comps = J.obj [("type", J.s "header"), ("parameters", J.arr [J.obj
      [("type", J.s ht), (ht, J.obj [("id", J.s mid)])]])] :: rest := by
  unfold build_template_components at hok
  rw [headerComponent_media htext hmurl ht mid hmed hmid] at hok
  rcases hf : (match fo with | none => Except.ok [] | some l => flowButtonComponents l) with
    e | flows
  · simp only [hf] at hok
    simp at hok
  · simp only [hf] at hok
    rcases hc : (match co with | none => Except.ok [] | some l => copyCodeComponents l) with
      e | copies
    · simp only [hc] at hok
      simp at hok
    · simp only [hc, Except.ok.injEq] at hok
      refine ⟨bodyComponent bp ++ urlButtonComponents bps ++ flows ++ copies, ?_⟩
      rw [← hok]
      simp

theorem headerMediaParam_payload (phone template lang : String) (c : J) (rest : List J)
    (param : J) (hc : jGet c "parameters" = some (J.arr [param])) :
    headerMediaParam (build_template_payload phone template lang (some (c :: rest))) =
      some param := by
  have h0 : build_template_payload phone template lang (some (c :: rest)) =
      J.obj [("messaging_product", J.s "whatsapp"), ("to", J.s phone),
        ("type", J.s "template"), ("template", J.obj [("name", J.s template),
        ("language", J.obj [("code", J.s lang)]), ("components", J.arr (c :: rest))])] := rfl
  have h1 : jGet (J.obj [("messaging_product", J.s "whatsapp"), ("to", J.s phone),
      ("type", J.s "template"), ("template", J.obj [("name", J.s template),
      ("language", J.obj [("code", J.s lang)]), ("components", J.arr (c :: rest))])])
      "template" = some (J.obj [("name", J.s template), ("language", J.obj [("code", J.s lang)]),
      ("components", J.arr (c :: rest))]) := by simp [jGet, List.lookup]
  have h2 : jGet (J.obj [("name", J.s template), ("language", J.obj [("code", J.s lang)]),
      ("components", J.arr (c :: rest))]) "components" = some (J.arr (c :: rest)) := by
    simp [jGet, List.lookup]
  rw [h0]
  unfold headerMediaParam
  simp only [h1, h2, hc]

theorem finishTemplate_header_param (up : String → Except String MediaRec) (row : Row)
    (phone template ht mid : String) (hmed : isMediaHeader ht = true) (hmid : mid ≠ "")
    (payload : J)
    (hready : finishTemplate (realClient up) row phone template ht (some mid) =
      .ready phone payload) :
    headerMediaParam payload = some (J.obj [("type", J.s ht), (ht, J.obj [("id", J.s mid)])]) := by
  unfold finishTemplate at hready
  rcases hcc : collectCopyCode row 0 (List.range 10) with e | ccs
  · simp only [hcc] at hready
    exact absurd hready (by simp)
  · simp only [hcc] at hready
    split at hready
    · exact absurd hready (by simp)
    · rename_i comps hbc
      obtain ⟨rest, hcomps⟩ :=
        build_template_components_media _ _ _ _ _ _ ht mid hmed hmid comps hbc
      subst hcomps
      simp only [List.isEmpty_cons, if_false, Bool.false_eq_true] at hready
      have hpl : build_template_payload phone template
          (pyStrip (pyOr (rowGet row "lang") "en_US"))
          (some (J.obj [("type", J.s "header"), ("parameters", J.arr [J.obj
            [("type", J.s ht), (ht, J.obj [("id", J.s mid)])]])] :: rest)) = payload := by
        injection hready
      rw [← hpl]
      exact headerMediaParam_payload _ _ _ _ _ _ (by simp [jGet, List.lookup])

/-- C3 counterexample: a template row with a media header, a media URL
already present, no media id, and a local path: the upload collaborator is
still invoked (one call, with the path), although the claim's
"if and only if" condition (no id AND no URL AND a path) is false here. -/
theorem C3_media_upload_counterexample :
    getS c3row "header_media_url" = "https://x"
    ∧ (prepareRow netClient c3row).2 = ["local.jpg"] :=
  ⟨rfl, rfl⟩

/-- C3 (amended): for a template-kind row with phone, template and a media
header type, the upload collaborator is invoked if and only if the media-id
field is empty and a local path is given (the media URL plays no role in the
decision); exactly one call is then made, with that path; an upload failure
`e` yields `Error("media_upload_failed: " ++ e)`; and on upload success the
ready payload's header media parameter carries the returned asset id, not
the file path. -/
theorem C3_media_upload_amended (up : String → Except String MediaRec) (row : Row)
    (hphone : getS row "phone" ≠ "") (hmt : msgTypeOf row ≠ "interactive")
    (htpl : getS row "template" ≠ "")
    (hmedia : isMediaHeader (headerTypeOf row) = true) :
    ((prepareRow (realClient up) row).2 ≠ [] ↔
      (getS row "header_media_id" = "" ∧ getS row "header_media_path" ≠ ""))
    ∧ (∀ p, getS row "header_media_id" = "" → getS row "header_media_path" = p → p ≠ "" →
        (prepareRow (realClient up) row).2 = [p]
        ∧ (∀ e, up p = .error e →
            (prepareRow (realClient up) row).1 =
              .error (getS row "phone") ("media_upload_failed: " ++ e))
        ∧ (∀ rec, up p = .ok rec → rec.id ≠ "" →
            ∀ payload, (prepareRow (realClient up) row).1 = .ready (getS row "phone") payload →
              headerMediaParam payload = some (J.obj [("type", J.s (headerTypeOf row)),
                (headerTypeOf row, J.obj [("id", J.s rec.id)])]))) := by
  have hpr : prepareRow (realClient up) row =
      prepareTemplate (realClient up) row (getS row "phone") := by
    unfold prepareRow
    rw [if_neg hphone, if_neg hmt]
  by_cases hid : getS row "header_media_id" = ""
  · by_cases hpath : getS row "header_media_path" = ""
    · have hsnd : prepareTemplate (realClient up) row (getS row "phone") =
          (finishTemplate (realClient up) row (getS row "phone") (getS row "template")
            (headerTypeOf row) (optS (getS row "header_media_id")), []) := by
        unfold prepareTemplate
        rw [if_neg htpl]
        simp [optS, hid, hpath]
      rw [hpr, hsnd]
      refine ⟨by simp [hpath], ?_⟩
      intro p _ hp' hpne
      rw [hpath] at hp'
      exact absurd hp'.symm hpne
    · have harm : prepareTemplate (realClient up) row (getS row "phone") =
          (match up (getS row "header_media_path") with
           | .error e => (.error (getS row "phone") ("media_upload_failed: " ++ e),
               [getS row "header_media_path"])
           | .ok info => (finishTemplate (realClient up) row (getS row "phone")
               (getS row "template") (headerTypeOf row) (some info.id),
               [getS row "header_media_path"])) := by
        unfold prepareTemplate
        rw [if_neg htpl]
        simp [optS, hid, hpath, hmedia, realClient]
      rw [hpr, harm]
      constructor
      · rcases hup : up (getS row "header_media_path") with e | info <;> simp [hid, hpath]
      · intro p hid2 hp2 hpne2
        subst hp2
        refine ⟨?_, ?_, ?_⟩
        · rcases hup : up (getS row "header_media_path") with e | info <;> simp
        · intro e he
          rw [he]
        · intro rec hrec hrecid payload hready
          rw [hrec] at hready
          simp only at hready
          exact finishTemplate_header_param up row (getS row "phone") (getS row "template")
            (headerTypeOf row) rec.id hmedia hrecid payload hready
  · have hsnd : prepareTemplate (realClient up) row (getS row "phone") =
        (finishTemplate (realClient up) row (getS row "phone") (getS row "template")
          (headerTypeOf row) (optS (getS row "header_media_id")), []) := by
      unfold prepareTemplate
      rw [if_neg htpl]
      simp [optS, hid]
    rw [hpr, hsnd]
    refine ⟨by simp [hid], ?_⟩
    intro p hid' _ _
    exact absurd hid' hid

/-- Witness for the amended C3: a template row with `header_type=image`, no
media id or URL, and a local path, against a client whose upload returns
asset `ASSET9`: exactly one upload call with the path is made. -/
theorem C3_media_upload_amended_witness :
    (prepareRow okUploadClient c3wrow).2 = ["local.jpg"] :=
  ((C3_media_upload_amended
      (fun p => .ok { id := "ASSET9", mime_type := "image/jpeg", path := p, uploaded_at := 0 })
      c3wrow (by decide) (by decide) (by decide) (by decide)).2
    "local.jpg" (by decide) (by decide) (by decide)).1

theorem evict_decomp (now : ℚ) : ∀ q : List ℚ,
    ∃ d, q = d ++ evict now q ∧ ∀ t ∈ d, 1 ≤ now - t
  | [] => ⟨[], rfl, by simp⟩
  | t :: rest => by
    by_cases h : 1 ≤ now - t
    · obtain ⟨d, hd, hde⟩ := evict_decomp now rest
      refine ⟨t :: d, ?_, ?_⟩
      · simp only [evict, if_pos h, List.cons_append]
        rw [← hd]
      · intro x hx
        rcases List.mem_cons.mp hx with rfl | hx'
        · exact h
        · exact hde x hx'
    · refine ⟨[], ?_, by simp⟩
      simp only [evict, if_neg h, List.nil_append]

theorem mem_evict_lt (now : ℚ) : ∀ (q : List ℚ), q.Sorted (· ≤ ·) →
    ∀ t ∈ evict now q, now - t < 1
  | [], _, t, ht => by simp [evict] at ht
  | a :: rest, hs, t, ht => by
    by_cases h : 1 ≤ now - a
    · rw [evict, if_pos h] at ht
      exact mem_evict_lt now rest hs.of_cons t ht
    · rw [evict, if_neg h] at ht
      push_neg at h
      rcases List.mem_cons.mp ht with rfl | ht'
      · exact h
      · have hat := List.rel_of_sorted_cons hs t ht'
        linarith

theorem runAttempts_window (rate : Nat) :
    ∀ (ts q pre hist : List ℚ),
      hist = pre ++ q →
      hist.Sorted (· ≤ ·) →
      (∀ t ∈ hist, ∀ s ∈ ts, t ≤ s) →
      ts.Sorted (· ≤ ·) →
      (∀ t ∈ pre, ∀ s ∈ ts, t + 1 ≤ s) →
      (∀ a, windowCount a hist ≤ rate) →
      ∀ a, windowCount a (hist ++ runAttempts rate q ts) ≤ rate
  | [], q, pre, hist => by
    intro _ _ _ _ _ hw a
    simpa [runAttempts] using hw a
  | now :: rest, q, pre, hist => by
    intro hh hhs hhts hts hpre hw a
    obtain ⟨d, hdq, hde⟩ := evict_decomp now q
    set q' := evict now q with hq'def
    have hqs : q.Sorted (· ≤ ·) := (List.pairwise_append.mp (hh ▸ hhs)).2.1
    have hnowmem : now ∈ now :: rest := List.mem_cons_self _ _
    have hhist_le_now : ∀ t ∈ hist, t ≤ now := fun t ht => hhts t ht now hnowmem
    have hmemq : ∀ t ∈ q', t ∈ hist := by
      intro t ht
      rw [hh, hdq]
      exact List.mem_append.mpr (Or.inr (List.mem_append.mpr (Or.inr ht)))
    have hcount : windowCount (now - 1) hist = q'.length := by
      rw [hh, hdq]
      unfold windowCount
      rw [List.countP_append, List.countP_append]
      have hpre0 : (pre.countP fun t => decide (now - 1 < t ∧ t ≤ now - 1 + 1)) = 0 := by
        rw [List.countP_eq_zero]
        intro t ht
        have := hpre t ht now hnowmem
        simp only [decide_eq_true_eq]
        intro hcontra
        linarith [hcontra.1]
      have hd0 : (d.countP fun t => decide (now - 1 < t ∧ t ≤ now - 1 + 1)) = 0 := by
        rw [List.countP_eq_zero]
        intro t ht
        have := hde t ht
        simp only [decide_eq_true_eq]
        intro hcontra
        linarith [hcontra.1]
      have hq1 : (q'.countP fun t => decide (now - 1 < t ∧ t ≤ now - 1 + 1)) = q'.length := by
        rw [List.countP_eq_length]
        intro t ht
        have h1 := mem_evict_lt now q hqs t ht
        have h2 : t ≤ now := hhist_le_now t (hmemq t ht)
        simp only [decide_eq_true_eq]
        constructor <;> linarith
      omega
    have hstep : runAttempts rate q (now :: rest) =
        if q'.length < rate
        then now :: runAttempts rate (q' ++ [now]) rest
        else runAttempts rate q' rest := by
      by_cases hlt : q'.length < rate <;>
        simp [runAttempts, attemptStep, ← hq'def, hlt]
    by_cases hlt : q'.length < rate
    · rw [hstep, if_pos hlt]
      have hassoc : hist ++ now :: runAttempts rate (q' ++ [now]) rest =
          (hist ++ [now]) ++ runAttempts rate (q' ++ [now]) rest := by simp
      rw [hassoc]
      refine runAttempts_window rate rest (q' ++ [now]) (pre ++ d) (hist ++ [now])
        ?_ ?_ ?_ hts.of_cons ?_ ?_ a
      · rw [hh, hdq]
        simp [List.append_assoc]
      · refine List.pairwise_append.mpr ⟨hhs, List.pairwise_singleton _ _, ?_⟩
        intro x hx y hy
        rw [List.mem_singleton] at hy
        subst hy
        exact hhist_le_now x hx
      · intro t ht s hs
        rcases List.mem_append.mp ht with ht' | ht'
        · exact hhts t ht' s (List.mem_cons_of_mem _ hs)
        · rw [List.mem_singleton] at ht'
          subst ht'
          exact List.rel_of_sorted_cons hts s hs
      · intro t ht s hs
        rcases List.mem_append.mp ht with ht' | ht'
        · exact hpre t ht' s (List.mem_cons_of_mem _ hs)
        · have h1 := hde t ht'
          have h2 := List.rel_of_sorted_cons hts s hs
          linarith
      · intro b
        unfold windowCount
        rw [List.countP_append]
        by_cases hbw : b < now ∧ now ≤ b + 1
        · have hmono : (hist.countP fun t => decide (b < t ∧ t ≤ b + 1)) ≤
              hist.countP fun t => decide (now - 1 < t ∧ t ≤ now - 1 + 1) := by
            apply List.countP_mono_left
            intro x hx hpx
            simp only [decide_eq_true_eq] at hpx ⊢
            have hxn := hhist_le_now x hx
            constructor <;> linarith [hpx.1, hpx.2, hbw.1, hbw.2]
          have hcnt' : (hist.countP fun t => decide (now - 1 < t ∧ t ≤ now - 1 + 1)) =
              q'.length := hcount
          have hone : ([now].countP fun t => decide (b < t ∧ t ≤ b + 1)) ≤ 1 := by
            have := List.countP_le_length (l := [now]) (fun t => decide (b < t ∧ t ≤ b + 1))
            simpa using this
          omega
        · have hzero : ([now].countP fun t => decide (b < t ∧ t ≤ b + 1)) = 0 := by
            rw [List.countP_eq_zero]
            intro t ht
            rw [List.mem_singleton] at ht
            subst ht
            simpa using hbw
          have := hw b
          unfold windowCount at this
          omega
    · rw [hstep, if_neg hlt]
      refine runAttempts_window rate rest q' (pre ++ d) hist
        ?_ hhs ?_ hts.of_cons ?_ hw a
      · rw [hh, hdq, List.append_assoc]
      · intro t ht s hs
        exact hhts t ht s (List.mem_cons_of_mem _ hs)
      · intro t ht s hs
        rcases List.mem_append.mp ht with ht' | ht'
        · exact hpre t ht' s (List.mem_cons_of_mem _ hs)
        · have h1 := hde t ht'
          have h2 := List.rel_of_sorted_cons hts s hs
          linarith

/-- C2: for the rate limiter constructed with rate `n` (clamped to at least
1, `limiterRate n`), over any serialized sequence of critical-section
executions at nondecreasing clock readings — any number of concurrent
callers serialized on the shared lock — the number of successful
`acquire()` returns inside any wall-clock window `(a, a + 1]` of duration
one second never exceeds the clamped rate: each success requires fewer than
`limiterRate n` unexpired recorded timestamps after front eviction, and
records its own timestamp before returning. -/
theorem C2_rate_limiter (n : Int) (ts : List ℚ) (hts : ts.Sorted (· ≤ ·)) (a : ℚ) :
    windowCount a (runAttempts (limiterRate n) [] ts) ≤ limiterRate n := by
  have h := runAttempts_window (limiterRate n) ts [] [] [] rfl (by simp) (by simp) hts
    (by simp) (by intro b; simp [windowCount]) a
  simpa using h

/-- Witness for C2: three acquire attempts at time 0 with rate 1; one
succeeds, and the window ending at time 0 holds exactly one return. -/
theorem C2_rate_limiter_witness :
    windowCount (-1) (runAttempts (limiterRate 1) [] [0, 0, 0]) ≤ limiterRate 1 :=
  C2_rate_limiter 1 [0, 0, 0] (by decide) (-1)

end WhatsAppSender
